import Mathlib

/-!
Verification of the SmartSlotBackend booking core.

This file gives a shallow embedding of the scheduling/booking logic of the
SmartSlotBackend repository and proves properties of it:

* time-of-day arithmetic and the slot-grid generator
  (`src/utils/dateUtils.js`, `DateUtils.generateTimeSlots`, and the identical
  loop `availableDateSchema.methods.generateTimeSlots` in the AvailableDate
  model);
* the AvailableDate model (`availableDateSchema`): the `totalSlots` virtual,
  slot validity, the pre-save time-range validation, the unique index on
  `date`, and the admin bulk-creation endpoint
  (`AdminController.createBulkAvailableDates`);
* the Booking model (`bookingSchema`): the compound unique index on
  `(date, timeSlot)`, the pre-save double-booking hook, booking-reference
  generation (`generateBookingReference`), and the controller operations
  `createBooking`, `cancelBooking`, `rescheduleBooking`,
  `updateBookingStatus` and `bulkUpdateBookings`.

Dates ("YYYY-MM-DD") and times ("HH:MM") are kept as strings and compared
lexicographically, exactly as the JavaScript source compares them.
Timestamps in milliseconds are modelled as integers (the JavaScript float
arithmetic on these values is exact in the ranges involved).
-/

namespace SmartSlot

/-! ## Time-of-day arithmetic (`src/utils/dateUtils.js`) -/

/-- Lexicographic order on character lists: JavaScript's `<` on strings
(code-unit comparison; identical to code-point order on the ASCII date and
time strings this system compares). -/
def lexLt : List Char → List Char → Bool
  | [], [] => false
  | [], _ :: _ => true
  | _ :: _, [] => false
  | c :: cs, d :: ds => if c < d then true else if d < c then false else lexLt cs ds

/-- JavaScript `a < b` on strings. -/
def strLt (a b : String) : Bool := lexLt a.data b.data

/-- JavaScript `a <= b` on strings (total order, so `a <= b ⟺ ¬(b < a)`). -/
def strLe (a b : String) : Bool := !strLt b a

/-- JavaScript's `String.prototype.split(':')` on the character list, used to
split "HH:MM" strings. -/
def splitColonAux : List Char → List Char → List String
  | [], acc => [String.mk acc.reverse]
  | c :: cs, acc =>
    if c = ':' then String.mk acc.reverse :: splitColonAux cs []
    else splitColonAux cs (c :: acc)

/-- `Number(s)` for the digit strings this system feeds it ( `Number("") = 0`;
non-numeric input, which the validators exclude, also maps to 0). -/
def jsNumber (s : String) : Nat :=
  if s.data ≠ [] ∧ s.data.all (fun c => c.isDigit) then
    s.data.foldl (fun n c => n * 10 + (c.toNat - 48)) 0
  else 0

/-- Parse an "HH:MM" string to minutes after midnight.  Mirrors
`time.split(':').map(Number)` followed by `h * 60 + m` in the source. -/
def timeToMinutes (t : String) : Nat :=
  match splitColonAux t.data [] with
  | [h, m] => jsNumber h * 60 + jsNumber m
  | _ => 0

/-- `n.toString().padStart(2, '0')`. -/
def pad2 (n : Nat) : String :=
  if n < 10 then "0" ++ toString n else toString n

/-- Render minutes after midnight as "HH:MM", as the source's
`hours.toString().padStart(2, '0') + ':' + minutes...` does. -/
def minutesToTime (m : Nat) : String :=
  pad2 (m / 60) ++ ":" ++ pad2 (m % 60)

/-- The body of the slot-generation `while (currentMinutes < endMinutes)`
loop, with an explicit iteration bound.  `slotsMinutes` below always supplies
the bound `e - cur`, which (for `d ≥ 1`, guaranteed by the schema's minimum
slot duration of 15) exceeds the number of iterations, so the `0` case is
never reached along real executions. -/
def slotLoop (d e : Nat) : Nat → Nat → List Nat
  | 0, _ => []
  | fuel + 1, cur => if cur < e then cur :: slotLoop d e fuel (cur + d) else []

/-- The slot grid in minutes: starting at `cur`, emit points advancing by `d`
while strictly below `e`.  This is the loop shared verbatim by
`DateUtils.generateTimeSlots` and
`availableDateSchema.methods.generateTimeSlots`. -/
def slotsMinutes (d e cur : Nat) : List Nat :=
  slotLoop d e (e - cur) cur

/-- `DateUtils.generateTimeSlots(startTime, endTime, duration)`. -/
def generateTimeSlots (startTime endTime : String) (duration : Nat) : List String :=
  (slotsMinutes duration (timeToMinutes endTime) (timeToMinutes startTime)).map minutesToTime

/-! ### Closed form of the slot grid -/

/-- `slotLoop` with sufficient fuel produces exactly the arithmetic
progression of slot starts below `e` (ceil division counts them). -/
lemma slotLoop_eq_range (d e : Nat) (hd : 0 < d) :
    ∀ fuel cur, e - cur ≤ fuel →
      slotLoop d e fuel cur =
        (List.range ((e - cur + d - 1) / d)).map (fun k => cur + k * d) := by
  intro fuel
  induction fuel with
  | zero =>
    intro cur hcur
    have he : e - cur = 0 := Nat.le_zero.mp hcur
    have hcnt : (e - cur + d - 1) / d = 0 := by
      rw [he]
      exact Nat.div_eq_of_lt (by omega)
    simp [slotLoop, hcnt]
  | succ n ih =>
    intro cur hcur
    by_cases h : cur < e
    · have hrec : e - (cur + d) ≤ n := by omega
      have hcnt : (e - cur + d - 1) / d = (e - (cur + d) + d - 1) / d + 1 := by
        rcases Nat.le_total e (cur + d) with hle | hle
        · have h0 : e - (cur + d) = 0 := by omega
          rw [h0]
          have hone : (e - cur + d - 1) / d = 1 := by
            apply Nat.div_eq_of_lt_le <;> omega
          have hzero : (0 + d - 1) / d = 0 := Nat.div_eq_of_lt (by omega)
          omega
        · have h1 : e - cur + d - 1 = (e - (cur + d) + d - 1) + d := by omega
          rw [h1, Nat.add_div_right _ hd]
      rw [slotLoop, if_pos h, ih (cur + d) hrec, hcnt, List.range_succ_eq_map]
      simp only [List.map_cons, List.map_map, Nat.zero_mul, Nat.add_zero]
      congr 1
      apply List.map_congr_left
      intro k _
      simp only [Function.comp_apply, Nat.succ_eq_add_one]
      ring
    · have he : e - cur = 0 := by omega
      have hcnt : (e - cur + d - 1) / d = 0 := by
        rw [he]
        exact Nat.div_eq_of_lt (by omega)
      rw [slotLoop, if_neg h, hcnt]
      simp

/-- Closed form for the slot grid from a start point. -/
lemma slotsMinutes_eq_range (d e cur : Nat) (hd : 0 < d) :
    slotsMinutes d e cur =
      (List.range ((e - cur + d - 1) / d)).map (fun k => cur + k * d) :=
  slotLoop_eq_range d e hd (e - cur) cur le_rfl

/-- Membership in the slot grid: exactly the points `cur + k * d` strictly
below `e`. -/
lemma mem_slotsMinutes_iff (d e cur t : Nat) (hd : 0 < d) :
    t ∈ slotsMinutes d e cur ↔ ∃ k, t = cur + k * d ∧ t < e := by
  rw [slotsMinutes_eq_range d e cur hd]
  simp only [List.mem_map, List.mem_range]
  constructor
  · rintro ⟨k, hk, rfl⟩
    refine ⟨k, rfl, ?_⟩
    have h2 : k + 1 ≤ (e - cur + d - 1) / d := hk
    have h3 : (k + 1) * d ≤ e - cur + d - 1 :=
      (Nat.le_div_iff_mul_le hd).mp h2
    have h4 : k * d + d ≤ e - cur + d - 1 := by
      calc k * d + d = (k + 1) * d := by ring
        _ ≤ e - cur + d - 1 := h3
    omega
  · rintro ⟨k, rfl, hlt⟩
    refine ⟨k, ?_, rfl⟩
    have h4 : k * d + d ≤ e - cur + d - 1 := by omega
    have h3 : (k + 1) * d ≤ e - cur + d - 1 := by
      calc (k + 1) * d = k * d + d := by ring
        _ ≤ e - cur + d - 1 := h4
    exact (Nat.le_div_iff_mul_le hd).mpr h3

/-- The slot grid is strictly ascending. -/
lemma slotsMinutes_sorted (d e cur : Nat) (hd : 0 < d) :
    (slotsMinutes d e cur).Pairwise (· < ·) := by
  rw [slotsMinutes_eq_range d e cur hd]
  rw [List.pairwise_map]
  refine (List.pairwise_lt_range _).imp ?_
  intro a b hab
  exact Nat.add_lt_add_left ((Nat.mul_lt_mul_right hd).mpr hab) cur

/-! ### Order facts for the lexicographic comparison -/

lemma lexLt_irrefl (l : List Char) : lexLt l l = false := by
  induction l with
  | nil => rfl
  | cons c cs ih => simp [lexLt, ih]

lemma lexLt_trans {a b c : List Char} (hab : lexLt a b = true)
    (hbc : lexLt b c = true) : lexLt a c = true := by
  induction a generalizing b c with
  | nil =>
    cases b with
    | nil => simp [lexLt] at hab
    | cons y ys =>
      cases c with
      | nil => simp [lexLt] at hbc
      | cons z zs => simp [lexLt]
  | cons x xs ih =>
    cases b with
    | nil => simp [lexLt] at hab
    | cons y ys =>
      cases c with
      | nil => simp [lexLt] at hbc
      | cons z zs =>
        simp only [lexLt] at hab hbc ⊢
        rcases lt_trichotomy x y with hxy | hxy | hxy
        · rcases lt_trichotomy y z with hyz | hyz | hyz
          · simp [lt_trans hxy hyz]
          · subst hyz
            simp [hxy]
          · rw [if_neg (lt_asymm hyz), if_pos hyz] at hbc
            simp at hbc
        · subst hxy
          rcases lt_trichotomy x z with hxz | hxz | hxz
          · simp [hxz]
          · subst hxz
            rw [if_neg (lt_irrefl x), if_neg (lt_irrefl x)] at hab hbc ⊢
            exact ih hab hbc
          · rw [if_neg (lt_asymm hxz), if_pos hxz] at hbc
            simp at hbc
        · rw [if_neg (lt_asymm hxy), if_pos hxy] at hab
          simp at hab

lemma strLt_irrefl (s : String) : strLt s s = false := lexLt_irrefl s.data

lemma strLt_trans {a b c : String} (hab : strLt a b = true)
    (hbc : strLt b c = true) : strLt a c = true := lexLt_trans hab hbc

/-! ## AvailableDate model (`availableDateSchema`) -/

/-- One `AvailableDate` document: a calendar date open for booking, with its
time window and slot granularity (`isActive` defaults true, `slotDuration`
defaults 30 and is schema-constrained to 15–120). -/
structure AvailWindow where
  date : String
  startTime : String
  endTime : String
  slotDuration : Nat
  isActive : Bool
  notes : String
  deriving DecidableEq, Repr

/-- `availableDateSchema.methods.generateTimeSlots` — textually the same loop
as `DateUtils.generateTimeSlots`, reading the window's own fields. -/
def AvailWindow.generateTimeSlots (w : AvailWindow) : List String :=
  SmartSlot.generateTimeSlots w.startTime w.endTime w.slotDuration

/-- `availableDateSchema.virtual('totalSlots')`:
`Math.floor((endMinutes - startMinutes) / slotDuration)`.  The subtraction and
floor are on JavaScript numbers, hence the `Int` floor division. -/
def AvailWindow.totalSlots (w : AvailWindow) : Int :=
  ((timeToMinutes w.endTime : Int) - (timeToMinutes w.startTime : Int)).fdiv w.slotDuration

/-- `availableDateSchema.methods.isValidTimeSlot`: membership in the generated
grid (`slots.includes(timeSlot)`). -/
def AvailWindow.isValidTimeSlot (w : AvailWindow) (timeSlot : String) : Bool :=
  w.generateTimeSlots.contains timeSlot

/-! ### Bulk creation of available dates (`AdminController.createBulkAvailableDates`) -/

/-- One element of the bulk request's `dates` array. -/
structure DateSpec where
  date : String
  startTime : String
  endTime : String
  slotDuration : Option Nat
  notes : Option String
  deriving DecidableEq, Repr

/-- Failure modes of saving an `AvailableDate` document: the two pre-save
validations of `availableDateSchema.pre('save')`, and the MongoDB duplicate-key
error from the unique index on `date`. -/
inductive AvailErr where
  | endNotAfterStart
  | rangeTooShort
  | dupDate
  deriving DecidableEq, Repr

/-- `new AvailableDate({...}).save()` against the current collection:
pre-save validation, then insertion subject to the unique `date` index. -/
def saveAvail (store : List AvailWindow) (w : AvailWindow) :
    Except AvailErr (List AvailWindow) :=
  let sm := timeToMinutes w.startTime
  let em := timeToMinutes w.endTime
  if em ≤ sm then .error .endNotAfterStart
  else if em - sm < w.slotDuration then .error .rangeTooShort
  else if store.any (fun v => decide (v.date = w.date)) then .error .dupDate
  else .ok (store ++ [w])

/-- Build the document from one request item (`slotDuration || 30`,
`notes || ''`, `isActive` schema default true). -/
def mkWindow (spec : DateSpec) : AvailWindow :=
  { date := spec.date, startTime := spec.startTime, endTime := spec.endTime,
    slotDuration := spec.slotDuration.getD 30, isActive := true,
    notes := spec.notes.getD "" }

/-- Outcome report of the bulk loop: per-item `created` and `errors`
accumulators plus the resulting collection. -/
structure BulkResult where
  created : List AvailWindow
  errors : List (String × AvailErr)
  store : List AvailWindow
  deriving DecidableEq, Repr

/-- The `for (const dateConfig of dates)` loop: each item is attempted with
`save()`, successes are pushed to `created`, failures caught into `errors`. -/
def bulkLoop (store : List AvailWindow) : List DateSpec → BulkResult
  | [] => { created := [], errors := [], store := store }
  | spec :: rest =>
    match saveAvail store (mkWindow spec) with
    | .ok store' =>
      let r := bulkLoop store' rest
      { r with created := mkWindow spec :: r.created }
    | .error e =>
      let r := bulkLoop store rest
      { r with errors := (spec.date, e) :: r.errors }

/-- `AdminController.createBulkAvailableDates`: first queries for any
requested date that already exists and, if one is found, rejects the whole
request with 409 and the list of existing dates; only otherwise does it run
the per-item loop. -/
def createBulkAvailableDates (store : List AvailWindow) (specs : List DateSpec) :
    Except (List String) BulkResult :=
  let existingDates :=
    store.filter (fun w => specs.any (fun sp => decide (sp.date = w.date)))
  if 0 < existingDates.length then .error (existingDates.map (fun w => w.date))
  else .ok (bulkLoop store specs)

/-! ## Booking model (`bookingSchema` and `BookingController`) -/

/-- Booking lifecycle status (`bookingSchema.status` enum). -/
inductive BStatus where
  | pending
  | confirmed
  | cancelled
  | completed
  | noShow
  deriving DecidableEq, Repr

/-- One Booking document.  `id` models the MongoDB `_id`; customer fields are
kept flat (the controllers only ever copy them, apart from `notes`, which
`rescheduleBooking` appends to).  Millisecond timestamps are integers. -/
structure Booking where
  id : Nat
  date : String
  timeSlot : String
  name : String
  email : String
  phone : String
  notes : String
  status : BStatus
  bookingReference : String
  source : String
  cancelledAt : Option Int
  cancellationReason : Option String
  deriving DecidableEq, Repr

/-- The bookings collection plus the next fresh `_id`. -/
structure BState where
  nextId : Nat
  rows : List Booking
  deriving DecidableEq, Repr

/-- Validated customer payload handed to `createBooking` (the
`Validators.validateCustomer` step, excluded plumbing, has already passed). -/
structure Customer where
  name : String
  email : String
  phone : String
  notes : String
  deriving DecidableEq, Repr

/-- Request-time environment: the clock values the controllers read
(`DateUtils.getCurrentDate`, `getCurrentTime`, the advance-booking bound
`getDateAfterDays(config.business.maxAdvanceBookingDays)`, `Date.now()`),
the JavaScript `Date` parse of `date + 'T' + timeSlot + ':00'` in
milliseconds, the reference stem `prefix + YYYYMMDD + HHmm` built by
`generateBookingReference` from the current instant, and the AvailableDate
collection (read-only for booking operations). -/
structure Env where
  today : String
  currentTime : String
  maxDate : String
  nowMs : Int
  toMs : String → String → Int
  refBase : String
  avail : List AvailWindow

/-- `DateUtils.isPastDate`: string comparison `date < today`. -/
def isPastDate (env : Env) (date : String) : Bool :=
  strLt date env.today

/-- `DateUtils.isToday`. -/
def isToday (env : Env) (date : String) : Bool :=
  decide (date = env.today)

/-- `DateUtils.isPastTimeSlot`: for a non-today date it falls back to
`isPastDate`; for today it is `timeSlot <= currentTime` — note the `<=`:
a slot equal to the current minute counts as past. -/
def isPastTimeSlot (env : Env) (date timeSlot : String) : Bool :=
  if isToday env date then strLe timeSlot env.currentTime else isPastDate env date

/-- `DateUtils.isWithinBookingLimit`: `date <= maxDate`. -/
def isWithinBookingLimit (env : Env) (date : String) : Bool :=
  strLe date env.maxDate

/-- `AvailableDate.findOne({ date, isActive: true })`. -/
def findActiveWindow (env : Env) (date : String) : Option AvailWindow :=
  env.avail.find? (fun w => decide (w.date = date) && w.isActive)

/-- A non-cancelled booking occupying `(date, timeSlot)` exists
(`Booking.findOne({ date, timeSlot, status: { $nin: ['cancelled'] } })`). -/
def liveAt (s : BState) (date timeSlot : String) : Bool :=
  s.rows.any (fun r =>
    decide (r.date = date) && decide (r.timeSlot = timeSlot) &&
    !decide (r.status = BStatus.cancelled))

/-- Same query with `_id: { $ne: id }` (the reschedule / pre-save-hook
self-exclusion). -/
def liveAtExcept (s : BState) (date timeSlot : String) (id : Nat) : Bool :=
  s.rows.any (fun r =>
    decide (r.date = date) && decide (r.timeSlot = timeSlot) &&
    !decide (r.status = BStatus.cancelled) && !decide (r.id = id))

/-- Some row (any status) occupies `(date, timeSlot)`: what the compound
unique index `bookingSchema.index({date: 1, timeSlot: 1}, {unique: true})`
tests on insertion. -/
def pairAt (s : BState) (date timeSlot : String) : Bool :=
  s.rows.any (fun r => decide (r.date = date) && decide (r.timeSlot = timeSlot))

/-- The unique-index test on update: another row (different `_id`) occupies
the pair. -/
def pairAtExcept (s : BState) (date timeSlot : String) (id : Nat) : Bool :=
  s.rows.any (fun r =>
    decide (r.date = date) && decide (r.timeSlot = timeSlot) && !decide (r.id = id))

/-- `Booking.findOne({ bookingReference: reference })` is non-empty. -/
def refUsed (s : BState) (ref : String) : Bool :=
  s.rows.any (fun r => decide (r.bookingReference = ref))

/-- The `do { ... } while (counter <= 999)` search of
`generateBookingReference`, with an explicit iteration bound (entered with
fuel 999 at counter 1, so fuel never runs out before the loop's own exit; the
fuel-0 value matches the loop's "return the last tried reference" exit).
Note that when every candidate is taken the loop exits returning the
already-used `base ++ "999"` — it has no failure exit. -/
def genRefLoop (used : String → Bool) (base : String) : Nat → Nat → String
  | 0, counter => base ++ toString counter
  | fuel + 1, counter =>
    let ref := base ++ toString counter
    if used ref then
      if counter + 1 ≤ 999 then genRefLoop used base fuel (counter + 1) else ref
    else ref

/-- `bookingSchema.statics.generateBookingReference`. -/
def generateBookingReference (env : Env) (s : BState) : String :=
  genRefLoop (refUsed s) env.refBase 999 1

/-- Error outcomes of booking operations, one constructor per distinct
`respondWithError` site or storage-layer failure. -/
inductive BErr where
  | pastDate
  | pastTimeSlot
  | beyondLimit
  | dateUnavailable
  | invalidSlot
  | slotTaken
  | dupDateTimeSlot
  | dupReference
  | notFound
  | alreadyCancelled
  | cancelCompleted
  | tooLateToCancel
  | rescheduleCancelled
  | rescheduleCompleted
  | badRequest
  deriving DecidableEq, Repr

/-- `new Booking({...}).save()`: the pre-save hooks (reference generation,
double-booking check for a new document) followed by insertion subject to the
unique indexes on `(date, timeSlot)` and on `bookingReference`. -/
def saveNew (env : Env) (s : BState) (b : Booking) :
    Except BErr (BState × Booking) :=
  let b1 := if b.bookingReference = "" then
    { b with bookingReference := generateBookingReference env s } else b
  if liveAtExcept s b1.date b1.timeSlot b1.id then .error .slotTaken
  else if pairAt s b1.date b1.timeSlot then .error .dupDateTimeSlot
  else if refUsed s b1.bookingReference then .error .dupReference
  else .ok ({ nextId := s.nextId + 1, rows := b1 :: s.rows }, b1)

/-- `l.map` replacing the row with the given `_id` — the effect of saving an
updated document back into the collection. -/
def replaceById (id : Nat) (b' : Booking) (l : List Booking) : List Booking :=
  l.map (fun r => if r.id = id then b' else r)

/-- `booking.save()` for an already-persisted document: the double-booking
hook runs only when `date`/`timeSlot` were modified (`orig` is the loaded
state), and the unique `(date, timeSlot)` index is enforced against every
other row. -/
def saveExisting (s : BState) (orig b1 : Booking) :
    Except BErr (BState × Booking) :=
  if ((b1.date ≠ orig.date ∨ b1.timeSlot ≠ orig.timeSlot) ∧
      liveAtExcept s b1.date b1.timeSlot b1.id = true) then .error .slotTaken
  else if pairAtExcept s b1.date b1.timeSlot b1.id then .error .dupDateTimeSlot
  else .ok ({ s with rows := replaceById b1.id b1 s.rows }, b1)

/-- `BookingController.createBooking` (after the excluded customer-payload
validation): past-date, past-slot and advance-limit checks, active-window
lookup, slot-validity check, application-level conflict check, then
construction (status `confirmed`, source `online`) and `save()`. -/
def createBooking (env : Env) (s : BState) (date timeSlot : String)
    (cust : Customer) : Except BErr (BState × Booking) :=
  if isPastDate env date then .error .pastDate
  else if isPastTimeSlot env date timeSlot then .error .pastTimeSlot
  else if !isWithinBookingLimit env date then .error .beyondLimit
  else match findActiveWindow env date with
    | none => .error .dateUnavailable
    | some w =>
      if !(w.isValidTimeSlot timeSlot) then .error .invalidSlot
      else if liveAt s date timeSlot then .error .slotTaken
      else saveNew env s
        { id := s.nextId, date := date, timeSlot := timeSlot,
          name := cust.name, email := cust.email, phone := cust.phone,
          notes := cust.notes, status := .confirmed, bookingReference := "",
          source := "online", cancelledAt := none, cancellationReason := none }

/-- `booking.cancel(reason)` applied to the found document: status
`cancelled`, `cancelledAt` stamped, reason stored only when given. -/
def cancelledDoc (env : Env) (b : Booking) (reason : Option String) : Booking :=
  { b with
    status := .cancelled, cancelledAt := some env.nowMs,
    cancellationReason :=
      (match reason with
        | some r => some r
        | none => b.cancellationReason) }

/-- `BookingController.cancelBooking`: lookup by reference, terminal-status
checks, then the 2-hour policy — `hoursUntilBooking < 2 && hoursUntilBooking
> 0` with `hoursUntilBooking = (bookingDateTime - now) / 3600000`, expressed
equivalently on the millisecond difference. -/
def cancelBooking (env : Env) (s : BState) (ref : String)
    (reason : Option String) : Except BErr BState :=
  match s.rows.find? (fun r => decide (r.bookingReference = ref)) with
  | none => .error .notFound
  | some b =>
    if b.status = .cancelled then .error .alreadyCancelled
    else if b.status = .completed then .error .cancelCompleted
    else
      let diffMs : Int := env.toMs b.date b.timeSlot - env.nowMs
      if diffMs < 7200000 ∧ 0 < diffMs then .error .tooLateToCancel
      else .ok { s with rows := replaceById b.id (cancelledDoc env b reason) s.rows }

/-- The notes mutation `rescheduleBooking` performs when a reason is given. -/
def rescheduleNotes (b : Booking) (oldDate oldTimeSlot : String)
    (reason : Option String) : String :=
  match reason with
  | some r =>
    (if b.notes = "" then "" else b.notes ++ "\n\n") ++
      "Rescheduled from " ++ oldDate ++ " " ++ oldTimeSlot ++ ": " ++ r
  | none => b.notes

/-- `BookingController.rescheduleBooking`: lookup by reference,
terminal-status checks, the new slot revalidated as `create` does (past
checks, active window, grid membership), the conflict query excluding the
booking's own `_id`, then in-place mutation of `date`/`timeSlot` and
`save()`. -/
def rescheduleBooking (env : Env) (s : BState) (ref newDate newTimeSlot : String)
    (reason : Option String) : Except BErr (BState × Booking) :=
  match s.rows.find? (fun r => decide (r.bookingReference = ref)) with
  | none => .error .notFound
  | some b =>
    if b.status = .cancelled then .error .rescheduleCancelled
    else if b.status = .completed then .error .rescheduleCompleted
    else if isPastDate env newDate then .error .pastDate
    else if isPastTimeSlot env newDate newTimeSlot then .error .pastTimeSlot
    else match findActiveWindow env newDate with
      | none => .error .dateUnavailable
      | some w =>
        if !(w.isValidTimeSlot newTimeSlot) then .error .invalidSlot
        else if liveAtExcept s newDate newTimeSlot b.id then .error .slotTaken
        else saveExisting s b
          { b with
            date := newDate, timeSlot := newTimeSlot,
            notes := rescheduleNotes b b.date b.timeSlot reason }

/-- `AdminController.updateBookingStatus`: lookup by `_id`, set the status
unconditionally, and when it is `cancelled` with a reason given also stamp
`cancellationReason`/`cancelledAt`; `save()` runs no double-booking hook
since `date`/`timeSlot` are untouched. -/
def updateBookingStatus (env : Env) (s : BState) (id : Nat) (status : BStatus)
    (cancellationReason : Option String) : Except BErr (BState × Booking) :=
  match s.rows.find? (fun r => decide (r.id = id)) with
  | none => .error .notFound
  | some b =>
    let b1 :=
      if status = BStatus.cancelled ∧ cancellationReason.isSome = true then
        { b with
          status := status, cancellationReason := cancellationReason,
          cancelledAt := some env.nowMs }
      else { b with status := status }
    .ok ({ s with rows := replaceById b.id b1 s.rows }, b1)

/-- The `$set` document `bulkUpdateBookings` builds from its request body. -/
def bulkUpdateDoc (env : Env) (action : String) (status : Option BStatus)
    (reason : Option String) (b : Booking) : Booking :=
  if action = "update_status" then
    match status with
    | some st =>
      if st = BStatus.cancelled then
        { b with
          status := st, cancelledAt := some env.nowMs,
          cancellationReason :=
            (match reason with
              | some r => some r
              | none => b.cancellationReason) }
      else { b with status := st }
    | none => b
  else
    { b with
      status := .cancelled, cancelledAt := some env.nowMs,
      cancellationReason :=
        (match reason with
          | some r => some r
          | none => b.cancellationReason) }

/-- `AdminController.bulkUpdateBookings`:
`Booking.updateMany({_id: {$in: bookingIds}}, updateData)` after validating
the id list and the action. -/
def bulkUpdateBookings (env : Env) (s : BState) (ids : List Nat)
    (action : String) (status : Option BStatus) (reason : Option String) :
    Except BErr BState :=
  if ids = [] then .error .badRequest
  else if !(action = "update_status" ∨ action = "cancel" : Bool) then .error .badRequest
  else .ok { s with rows := s.rows.map (fun r =>
    if r.id ∈ ids then bulkUpdateDoc env action status reason r else r) }

/-! ## Inversion lemmas for the booking operations -/

lemma saveNew_ok {env : Env} {s : BState} {b : Booking} {s' : BState}
    {b1 : Booking} (h : saveNew env s b = .ok (s', b1)) :
    s'.nextId = s.nextId + 1 ∧ s'.rows = b1 :: s.rows ∧
    b1.date = b.date ∧ b1.timeSlot = b.timeSlot ∧ b1.id = b.id ∧
    b1.status = b.status ∧ pairAt s b.date b.timeSlot = false := by
  simp only [saveNew] at h
  set b2 := if b.bookingReference = "" then
    { b with bookingReference := generateBookingReference env s } else b with hb2
  have hfields : b2.date = b.date ∧ b2.timeSlot = b.timeSlot ∧
      b2.id = b.id ∧ b2.status = b.status := by
    rw [hb2]
    split <;> exact ⟨rfl, rfl, rfl, rfl⟩
  split at h
  · exact absurd h (by simp)
  · split at h
    · exact absurd h (by simp)
    · split at h
      · exact absurd h (by simp)
      · rename_i hlive hpair href
        rw [Except.ok.injEq, Prod.mk.injEq] at h
        obtain ⟨hs', hb1⟩ := h
        subst hb1
        subst hs'
        refine ⟨rfl, rfl, hfields.1, hfields.2.1, hfields.2.2.1, hfields.2.2.2, ?_⟩
        rw [← hfields.1, ← hfields.2.1]
        exact Bool.eq_false_iff.mpr hpair

lemma createBooking_ok {env : Env} {s : BState} {date timeSlot : String}
    {cust : Customer} {s' : BState} {b : Booking}
    (h : createBooking env s date timeSlot cust = .ok (s', b)) :
    isPastDate env date = false ∧ isPastTimeSlot env date timeSlot = false ∧
    isWithinBookingLimit env date = true ∧
    (∃ w, findActiveWindow env date = some w ∧ w.isValidTimeSlot timeSlot = true) ∧
    liveAt s date timeSlot = false ∧ pairAt s date timeSlot = false ∧
    s'.nextId = s.nextId + 1 ∧ s'.rows = b :: s.rows ∧
    b.date = date ∧ b.timeSlot = timeSlot ∧ b.id = s.nextId ∧
    b.status = .confirmed := by
  simp only [createBooking] at h
  split at h
  · exact absurd h (by simp)
  · split at h
    · exact absurd h (by simp)
    · split at h
      · exact absurd h (by simp)
      · rename_i hpd hpts hlim
        split at h
        · exact absurd h (by simp)
        · rename_i w hw
          split at h
          · exact absurd h (by simp)
          · split at h
            · exact absurd h (by simp)
            · rename_i hvalid hlive
              have hs := saveNew_ok h
              refine ⟨Bool.eq_false_iff.mpr hpd, Bool.eq_false_iff.mpr hpts,
                by simpa using hlim, ⟨w, hw, by simpa using hvalid⟩,
                Bool.eq_false_iff.mpr hlive, hs.2.2.2.2.2.2, hs.1, hs.2.1,
                hs.2.2.1, hs.2.2.2.1, hs.2.2.2.2.1, hs.2.2.2.2.2.1⟩

lemma cancelBooking_ok {env : Env} {s : BState} {ref : String}
    {reason : Option String} {s' : BState}
    (h : cancelBooking env s ref reason = .ok s') :
    ∃ b, s.rows.find? (fun r => decide (r.bookingReference = ref)) = some b ∧
      s'.nextId = s.nextId ∧
      s'.rows = replaceById b.id (cancelledDoc env b reason) s.rows := by
  simp only [cancelBooking] at h
  split at h
  · exact absurd h (by simp)
  · rename_i b hb
    split at h
    · exact absurd h (by simp)
    · split at h
      · exact absurd h (by simp)
      · split at h
        · exact absurd h (by simp)
        · rw [Except.ok.injEq] at h
          exact ⟨b, hb, by rw [← h], by rw [← h]⟩

lemma rescheduleBooking_ok {env : Env} {s : BState}
    {ref newDate newTimeSlot : String} {reason : Option String}
    {s' : BState} {b1 : Booking}
    (h : rescheduleBooking env s ref newDate newTimeSlot reason = .ok (s', b1)) :
    ∃ b, s.rows.find? (fun r => decide (r.bookingReference = ref)) = some b ∧
      s'.nextId = s.nextId ∧ s'.rows = replaceById b.id b1 s.rows ∧
      b1.id = b.id ∧ b1.date = newDate ∧ b1.timeSlot = newTimeSlot ∧
      b1.bookingReference = b.bookingReference ∧
      pairAtExcept s newDate newTimeSlot b.id = false := by
  simp only [rescheduleBooking] at h
  split at h
  · exact absurd h (by simp)
  · rename_i b hb
    split at h
    · exact absurd h (by simp)
    split at h
    · exact absurd h (by simp)
    split at h
    · exact absurd h (by simp)
    split at h
    · exact absurd h (by simp)
    split at h
    · exact absurd h (by simp)
    rename_i w hw
    split at h
    · exact absurd h (by simp)
    split at h
    · exact absurd h (by simp)
    simp only [saveExisting] at h
    split at h
    · exact absurd h (by simp)
    split at h
    · exact absurd h (by simp)
    rename_i hhook hpair
    rw [Except.ok.injEq, Prod.mk.injEq] at h
    obtain ⟨hs', hb1⟩ := h
    subst hb1
    refine ⟨b, hb, by rw [← hs'], by rw [← hs'], rfl, rfl, rfl, rfl, ?_⟩
    exact Bool.eq_false_iff.mpr hpair

lemma updateBookingStatus_ok {env : Env} {s : BState} {id : Nat}
    {status : BStatus} {reason : Option String} {s' : BState} {b1 : Booking}
    (h : updateBookingStatus env s id status reason = .ok (s', b1)) :
    ∃ b, s.rows.find? (fun r => decide (r.id = id)) = some b ∧
      s'.nextId = s.nextId ∧ s'.rows = replaceById b.id b1 s.rows ∧
      b1.id = b.id ∧ b1.date = b.date ∧ b1.timeSlot = b.timeSlot := by
  simp only [updateBookingStatus] at h
  split at h
  · exact absurd h (by simp)
  · rename_i b hb
    rw [Except.ok.injEq, Prod.mk.injEq] at h
    obtain ⟨hs', hb1⟩ := h
    subst hb1
    subst hs'
    refine ⟨b, hb, rfl, rfl, ?_, ?_, ?_⟩ <;> (split <;> rfl)

/-- `bulkUpdateDoc` never touches `date`, `timeSlot` or `_id`. -/
lemma bulkUpdateDoc_fields (env : Env) (action : String) (status : Option BStatus)
    (reason : Option String) (b : Booking) :
    (bulkUpdateDoc env action status reason b).date = b.date ∧
    (bulkUpdateDoc env action status reason b).timeSlot = b.timeSlot ∧
    (bulkUpdateDoc env action status reason b).id = b.id := by
  unfold bulkUpdateDoc
  split
  · split
    · split <;> exact ⟨rfl, rfl, rfl⟩
    · exact ⟨rfl, rfl, rfl⟩
  · exact ⟨rfl, rfl, rfl⟩

lemma bulkUpdateBookings_ok {env : Env} {s : BState} {ids : List Nat}
    {action : String} {status : Option BStatus} {reason : Option String}
    {s' : BState} (h : bulkUpdateBookings env s ids action status reason = .ok s') :
    s'.nextId = s.nextId ∧ s'.rows = s.rows.map (fun r =>
      if r.id ∈ ids then bulkUpdateDoc env action status reason r else r) := by
  simp only [bulkUpdateBookings] at h
  split at h
  · exact absurd h (by simp)
  · split at h
    · exact absurd h (by simp)
    · rw [Except.ok.injEq] at h
      exact ⟨by rw [← h], by rw [← h]⟩

/-! ## The double-booking invariant -/

/-- No two rows of the collection occupy the same `(date, timeSlot)` pair —
what the compound unique index guarantees. -/
def pairsDistinct (l : List Booking) : Prop :=
  l.Pairwise (fun a b => a.date ≠ b.date ∨ a.timeSlot ≠ b.timeSlot)

/-- All `_id`s are distinct. -/
def idsDistinct (l : List Booking) : Prop :=
  l.Pairwise (fun a b => a.id ≠ b.id)

/-- Store invariant: distinct pairs, distinct ids, ids below the fresh-id
counter. -/
def Inv (s : BState) : Prop :=
  pairsDistinct s.rows ∧ idsDistinct s.rows ∧ ∀ r ∈ s.rows, r.id < s.nextId

/-- One booking-writing operation, as the spec enumerates them: customer
create, customer cancel, reschedule, admin status update, admin bulk status
update.  Each step may happen under its own clock/environment. -/
inductive Step : BState → BState → Prop where
  | create (env : Env) (date timeSlot : String) (cust : Customer)
      {s s' : BState} {b : Booking}
      (h : createBooking env s date timeSlot cust = .ok (s', b)) : Step s s'
  | cancel (env : Env) (ref : String) (reason : Option String)
      {s s' : BState} (h : cancelBooking env s ref reason = .ok s') : Step s s'
  | reschedule (env : Env) (ref newDate newTimeSlot : String)
      (reason : Option String) {s s' : BState} {b : Booking}
      (h : rescheduleBooking env s ref newDate newTimeSlot reason = .ok (s', b)) :
      Step s s'
  | adminStatus (env : Env) (id : Nat) (status : BStatus)
      (reason : Option String) {s s' : BState} {b : Booking}
      (h : updateBookingStatus env s id status reason = .ok (s', b)) : Step s s'
  | bulk (env : Env) (ids : List Nat) (action : String)
      (status : Option BStatus) (reason : Option String) {s s' : BState}
      (h : bulkUpdateBookings env s ids action status reason = .ok s') : Step s s'

/-- States reachable from the empty collection by booking-writing
operations. -/
inductive Reachable : BState → Prop where
  | init : Reachable { nextId := 0, rows := [] }
  | step {s s' : BState} (hr : Reachable s) (hs : Step s s') : Reachable s'

lemma pairAt_eq_false_iff {s : BState} {d t : String} :
    pairAt s d t = false ↔ ∀ r ∈ s.rows, ¬(r.date = d ∧ r.timeSlot = t) := by
  simp [pairAt, List.any_eq_false]

lemma pairAtExcept_eq_false_iff {s : BState} {d t : String} {id : Nat} :
    pairAtExcept s d t id = false ↔
      ∀ r ∈ s.rows, r.id ≠ id → ¬(r.date = d ∧ r.timeSlot = t) := by
  rw [pairAtExcept, List.any_eq_false]
  constructor
  · intro h r hr hid hp
    have := h r hr
    simp [hp.1, hp.2, hid] at this
  · intro h r hr
    by_cases hid : r.id = id
    · simp [hid]
    · by_cases h1 : r.date = d
      · by_cases h2 : r.timeSlot = t
        · exact absurd ⟨h1, h2⟩ (h r hr hid)
        · simp [h2]
      · simp [h1]

/-- In a store with distinct ids, two member rows with equal ids are the
same row. -/
lemma eq_of_mem_of_id_eq {l : List Booking} (h : idsDistinct l) :
    ∀ a ∈ l, ∀ b ∈ l, a.id = b.id → a = b := by
  induction l with
  | nil => intro a ha; cases ha
  | cons x xs ih =>
    rcases List.pairwise_cons.mp h with ⟨hx, hxs⟩
    intro a ha b hb hab
    rcases List.mem_cons.mp ha with ha1 | ha1
    · rcases List.mem_cons.mp hb with hb1 | hb1
      · rw [ha1, hb1]
      · subst ha1
        exact absurd hab (hx b hb1)
    · rcases List.mem_cons.mp hb with hb1 | hb1
      · subst hb1
        exact absurd hab.symm (hx a ha1)
      · exact ih hxs a ha1 b hb1 hab

/-- Mapping a row-wise update that keeps `date`, `timeSlot` and `_id` of
every member preserves the invariant. -/
lemma Inv_map {s : BState} {f : Booking → Booking}
    (hf : ∀ r ∈ s.rows, (f r).date = r.date ∧ (f r).timeSlot = r.timeSlot ∧
      (f r).id = r.id)
    (h : Inv s) : Inv { s with rows := s.rows.map f } := by
  obtain ⟨hp, hi, hb⟩ := h
  refine ⟨?_, ?_, ?_⟩
  · rw [pairsDistinct, List.pairwise_map]
    refine hp.imp_of_mem ?_
    intro a b ha hb hab
    rw [(hf a ha).1, (hf a ha).2.1, (hf b hb).1, (hf b hb).2.1]
    exact hab
  · rw [idsDistinct, List.pairwise_map]
    refine hi.imp_of_mem ?_
    intro a b ha hb hab
    rw [(hf a ha).2.2, (hf b hb).2.2]
    exact hab
  · intro r hr
    rcases List.mem_map.mp hr with ⟨a, ha, rfl⟩
    rw [(hf a ha).2.2]
    exact hb a ha

/-- Replacing the row with `_id = tid` by a row whose pair conflicts with no
other row preserves pair-distinctness. -/
lemma pairsDistinct_replaceById {l : List Booking} {tid : Nat} {b1 : Booking}
    (hids : idsDistinct l)
    (hnew : ∀ r ∈ l, r.id ≠ tid → ¬(r.date = b1.date ∧ r.timeSlot = b1.timeSlot))
    (h : pairsDistinct l) :
    pairsDistinct (replaceById tid b1 l) := by
  induction l with
  | nil => exact List.Pairwise.nil
  | cons a l ih =>
    rcases List.pairwise_cons.mp hids with ⟨hida, hidl⟩
    rcases List.pairwise_cons.mp h with ⟨hpa, hpl⟩
    by_cases ha : a.id = tid
    · have hmapid : l.map (fun r => if r.id = tid then b1 else r) = l := by
        have : ∀ r ∈ l, (if r.id = tid then b1 else r) = r := by
          intro r hr
          rw [if_neg]
          intro hcon
          exact hida r hr (ha.trans hcon.symm)
        calc l.map (fun r => if r.id = tid then b1 else r)
            = l.map (fun r => r) := List.map_congr_left this
          _ = l := List.map_id' l
      rw [replaceById, List.map_cons, if_pos ha, hmapid]
      refine List.pairwise_cons.mpr ⟨?_, hpl⟩
      intro r hr
      have hrid : r.id ≠ tid := fun hcon => hida r hr (ha.trans hcon.symm)
      have := hnew r (List.mem_cons_of_mem a hr) hrid
      by_cases h1 : b1.date = r.date
      · right
        intro h2
        exact this ⟨h1.symm, h2.symm⟩
      · left
        exact h1
    · rw [replaceById, List.map_cons, if_neg ha]
      refine List.pairwise_cons.mpr ⟨?_, ih hidl (fun r hr hrid =>
        hnew r (List.mem_cons_of_mem a hr) hrid) hpl⟩
      intro y hy
      rcases List.mem_map.mp hy with ⟨x, hx, rfl⟩
      by_cases hxid : x.id = tid
      · rw [if_pos hxid]
        have := hnew a (List.mem_cons_self a l) ha
        by_cases h1 : a.date = b1.date
        · right
          intro h2
          exact this ⟨h1, h2⟩
        · left
          exact h1
      · rw [if_neg hxid]
        exact hpa x hx

/-- Replacing a member row by one with the same id and a fresh pair
preserves the full invariant. -/
lemma Inv_replaceById {s : BState} {b b1 : Booking}
    (hmem : b ∈ s.rows) (hid : b1.id = b.id)
    (hnew : ∀ r ∈ s.rows, r.id ≠ b.id →
      ¬(r.date = b1.date ∧ r.timeSlot = b1.timeSlot))
    (h : Inv s) : Inv { s with rows := replaceById b.id b1 s.rows } := by
  obtain ⟨hp, hi, hb⟩ := h
  refine ⟨pairsDistinct_replaceById hi hnew hp, ?_, ?_⟩
  · rw [idsDistinct, replaceById, List.pairwise_map]
    refine hi.imp_of_mem ?_
    intro x y hx hy hxy
    by_cases h1 : x.id = b.id <;> by_cases h2 : y.id = b.id <;>
      simp only [h1, h2, if_pos, if_neg, if_true, if_false, hid]
    · exact absurd (h1.trans h2.symm) hxy
    · simpa [hid, h1] using hxy
    · simpa [hid, h2] using hxy
    · exact hxy
  · intro r hr
    rcases List.mem_map.mp hr with ⟨a, ha, rfl⟩
    by_cases h1 : a.id = b.id
    · rw [if_pos h1]
      simp only [hid]
      exact hb b hmem
    · rw [if_neg h1]
      exact hb a ha

/-- The pair-difference relation is symmetric. -/
lemma pairNe_symm : Symmetric (fun a b : Booking =>
    a.date ≠ b.date ∨ a.timeSlot ≠ b.timeSlot) := by
  intro a b h
  rcases h with h | h
  · exact Or.inl h.symm
  · exact Or.inr h.symm

/-- From pair-distinctness: any two member rows with different ids have
different pairs. -/
lemma pair_ne_of_mem {l : List Booking} (hp : pairsDistinct l)
    {a b : Booking} (ha : a ∈ l) (hb : b ∈ l) (hid : a.id ≠ b.id) :
    ¬(a.date = b.date ∧ a.timeSlot = b.timeSlot) := by
  have hne : a ≠ b := fun h => hid (by rw [h])
  have := hp.forall pairNe_symm ha hb hne
  rcases this with h | h
  · exact fun hc => h hc.1
  · exact fun hc => h hc.2

/-- Every booking-writing operation preserves the store invariant. -/
lemma Inv_step {s s' : BState} (hs : Step s s') (h : Inv s) : Inv s' := by
  obtain ⟨hp, hi, hbnd⟩ := h
  cases hs with
  | create env date timeSlot cust h1 =>
    rename_i b
    obtain ⟨_, _, _, _, _, hpair, hnext, hrows, hbd, hbt, hbid, _⟩ :=
      createBooking_ok h1
    cases s' with
    | mk n' r' =>
      simp only at hnext hrows
      subst hnext
      subst hrows
      refine ⟨?_, ?_, ?_⟩
      · refine List.pairwise_cons.mpr ⟨?_, hp⟩
        intro r hr
        have := pairAt_eq_false_iff.mp hpair r hr
        by_cases h2 : b.date = r.date
        · right
          intro h3
          exact this ⟨h2.symm.trans hbd, h3.symm.trans hbt⟩
        · left
          exact h2
      · refine List.pairwise_cons.mpr ⟨?_, hi⟩
        intro r hr
        rw [hbid]
        exact fun hc => absurd (hc ▸ hbnd r hr) (lt_irrefl _)
      · intro r hr
        rcases List.mem_cons.mp hr with rfl | hr
        · rw [hbid]
          exact Nat.lt_succ_self s.nextId
        · exact Nat.lt_succ_of_lt (hbnd r hr)
  | cancel env ref reason h1 =>
    obtain ⟨b, hfind, hnext, hrows⟩ := cancelBooking_ok h1
    have hmem : b ∈ s.rows := List.mem_of_find?_eq_some hfind
    cases s' with
    | mk n' r' =>
      simp only at hnext hrows
      subst hnext
      subst hrows
      refine @Inv_replaceById s b (cancelledDoc env b reason) hmem rfl ?_ ⟨hp, hi, hbnd⟩
      intro r hr hrid
      show ¬(r.date = b.date ∧ r.timeSlot = b.timeSlot)
      exact pair_ne_of_mem hp hr hmem hrid
  | reschedule env ref newDate newTimeSlot reason h1 =>
    rename_i b1
    obtain ⟨b, hfind, hnext, hrows, hid, hbd, hbt, _, hpex⟩ :=
      rescheduleBooking_ok h1
    have hmem : b ∈ s.rows := List.mem_of_find?_eq_some hfind
    cases s' with
    | mk n' r' =>
      simp only at hnext hrows
      subst hnext
      subst hrows
      refine @Inv_replaceById s b b1 hmem hid ?_ ⟨hp, hi, hbnd⟩
      intro r hr hrid
      rw [hbd, hbt]
      exact pairAtExcept_eq_false_iff.mp hpex r hr hrid
  | adminStatus env id status reason h1 =>
    rename_i b1
    obtain ⟨b, hfind, hnext, hrows, hid, hbd, hbt⟩ := updateBookingStatus_ok h1
    have hmem : b ∈ s.rows := List.mem_of_find?_eq_some hfind
    cases s' with
    | mk n' r' =>
      simp only at hnext hrows
      subst hnext
      subst hrows
      refine @Inv_replaceById s b b1 hmem hid ?_ ⟨hp, hi, hbnd⟩
      intro r hr hrid
      rw [hbd, hbt]
      exact pair_ne_of_mem hp hr hmem hrid
  | bulk env ids action status reason h1 =>
    obtain ⟨hnext, hrows⟩ := bulkUpdateBookings_ok h1
    cases s' with
    | mk n' r' =>
      simp only at hnext hrows
      subst hnext
      subst hrows
      refine Inv_map ?_ ⟨hp, hi, hbnd⟩
      intro r _
      by_cases h2 : r.id ∈ ids
      · rw [if_pos h2]
        exact bulkUpdateDoc_fields env action status reason r
      · rw [if_neg h2]
        exact ⟨rfl, rfl, rfl⟩

/-- Every reachable store satisfies the invariant. -/
lemma Inv_reachable {s : BState} (h : Reachable s) : Inv s := by
  induction h with
  | init => exact ⟨List.Pairwise.nil, List.Pairwise.nil, fun r hr => absurd hr (List.not_mem_nil r)⟩
  | step _ hs ih => exact Inv_step hs ih

/-- The number of non-cancelled bookings occupying `(date, timeSlot)` — the
quantity the double-booking invariant bounds. -/
def liveCount (s : BState) (date timeSlot : String) : Nat :=
  (s.rows.filter (fun r =>
    decide (r.date = date) && decide (r.timeSlot = timeSlot) &&
    !decide (r.status = BStatus.cancelled))).length

lemma liveCount_le_one_of_pairsDistinct {s : BState} (hp : pairsDistinct s.rows)
    (date timeSlot : String) : liveCount s date timeSlot ≤ 1 := by
  rw [liveCount]
  set p := fun r : Booking =>
    decide (r.date = date) && decide (r.timeSlot = timeSlot) &&
    !decide (r.status = BStatus.cancelled) with hpdef
  have hsub : (s.rows.filter p).Pairwise
      (fun a b : Booking => a.date ≠ b.date ∨ a.timeSlot ≠ b.timeSlot) :=
    hp.sublist (List.filter_sublist s.rows)
  match hf : s.rows.filter p with
  | [] => simp
  | [a] => simp
  | a :: b :: tl =>
    exfalso
    rw [hf] at hsub
    have hab := (List.pairwise_cons.mp hsub).1 b (List.mem_cons_self b tl)
    have hamem : a ∈ s.rows.filter p := by
      rw [hf]
      exact List.mem_cons_self a (b :: tl)
    have hbmem : b ∈ s.rows.filter p := by
      rw [hf]
      exact List.mem_cons_of_mem a (List.mem_cons_self b tl)
    have hap := List.of_mem_filter hamem
    have hbp := List.of_mem_filter hbmem
    rw [hpdef] at hap hbp
    simp only [Bool.and_eq_true, decide_eq_true_eq] at hap hbp
    rcases hab with hne | hne
    · exact hne (hap.1.1.trans hbp.1.1.symm)
    · exact hne (hap.1.2.trans hbp.1.2.symm)

/-! ## Fixtures for concrete witnesses -/

/-- A one-hour availability window on 2025-10-01 with 30-minute slots. -/
def wEx : AvailWindow :=
  { date := "2025-10-01", startTime := "09:00", endTime := "10:00",
    slotDuration := 30, isActive := true, notes := "" }

/-- An environment: request handled on 2025-09-30 08:00. -/
def envEx : Env :=
  { today := "2025-09-30", currentTime := "08:00", maxDate := "2026-09-30",
    nowMs := 0, toMs := fun _ _ => 0, refBase := "SM202509300800",
    avail := [wEx] }

/-- A validated customer payload. -/
def custEx : Customer :=
  { name := "Asha Rao", email := "asha@example.com", phone := "9198765432",
    notes := "" }

/-- The booking `createBooking envEx` produces for `("2025-10-01","09:00")`
on the empty store. -/
def bEx : Booking :=
  { id := 0, date := "2025-10-01", timeSlot := "09:00", name := "Asha Rao",
    email := "asha@example.com", phone := "9198765432", notes := "",
    status := .confirmed, bookingReference := "SM2025093008001",
    source := "online", cancelledAt := none, cancellationReason := none }

/-- `bEx` after `cancelBooking envEx`. -/
def bExCancelled : Booking :=
  { bEx with status := .cancelled, cancelledAt := some 0 }

/-! ## Claim C1 -/

/-- Claim C1: in every state of the booking store reachable (from the empty
store) through the booking-writing operations — create, cancel, reschedule,
admin status update, bulk status update — at most one booking whose status is
not `cancelled` occupies any given `(date, timeSlot)` pair.  The compound
unique index on `(date, timeSlot)` in fact keeps every pair occupied by at
most one row of any status, which implies the stated invariant; in
particular `updateBookingStatus`, which skips the double-booking hook, still
cannot break it. -/
theorem atMostOneLiveBookingPerSlot (s : BState) (hr : Reachable s) :
    ∀ date timeSlot : String, liveCount s date timeSlot ≤ 1 := by
  intro date timeSlot
  exact liveCount_le_one_of_pairsDistinct (Inv_reachable hr).1 date timeSlot

/-- Witness for C1: the invariant instantiated after one concrete create
step from the empty store. -/
theorem atMostOneLiveBookingPerSlot_witness :
    liveCount { nextId := 1, rows := [bEx] } "2025-10-01" "09:00" ≤ 1 :=
  atMostOneLiveBookingPerSlot { nextId := 1, rows := [bEx] }
    (Reachable.step Reachable.init
      (Step.create envEx "2025-10-01" "09:00" custEx (b := bEx) rfl))
    "2025-10-01" "09:00"

/-! ## Claim C5 -/

/-- Claim C5: for every start strictly before end (in minutes) and duration
in [15,120], the generated grid is exactly the set of points
`start + k * duration` strictly below the end, in strictly ascending order;
`generateTimeSlots "09:00" "10:15" 30` is `["09:00","09:30","10:00"]` (the
trailing partial slot dropped) and a zero-length range yields the empty
list.  (`generateTimeSlots` is by definition the minute-level grid rendered
through `minutesToTime`.) -/
theorem generateTimeSlots_grid_correct :
    (∀ s e d t : Nat, 15 ≤ d → d ≤ 120 →
      (t ∈ slotsMinutes d e s ↔ ∃ k, t = s + k * d ∧ t < e)) ∧
    (∀ s e d : Nat, 15 ≤ d → d ≤ 120 →
      (slotsMinutes d e s).Pairwise (· < ·)) ∧
    generateTimeSlots "09:00" "10:15" 30 = ["09:00", "09:30", "10:00"] ∧
    generateTimeSlots "09:00" "09:00" 30 = [] := by
  refine ⟨?_, ?_, rfl, rfl⟩
  · intro s e d t h15 _
    exact mem_slotsMinutes_iff d e s t (by omega)
  · intro s e d h15 _
    exact slotsMinutes_sorted d e s (by omega)

/-- Witness for C5: the membership characterisation instantiated at the
09:00–10:15 / 30-minute example. -/
theorem generateTimeSlots_grid_correct_witness :
    570 ∈ slotsMinutes 30 615 540 ↔ ∃ k, 570 = 540 + k * 30 ∧ 570 < 615 :=
  generateTimeSlots_grid_correct.1 540 615 30 570 (by omega) (by omega)

/-! ## Claim C10 -/

/-- The 09:00–10:15 window with 30-minute slots, on which the `totalSlots`
virtual and the generated grid disagree. -/
def wMismatch : AvailWindow :=
  { date := "2025-09-25", startTime := "09:00", endTime := "10:15",
    slotDuration := 30, isActive := true, notes := "" }

/-- Counterexample to C10: for the valid window 09:00–10:15 with 30-minute
slots (duration not dividing the 75-minute range), the `totalSlots` virtual
(floor, reported by the calendar) is 2, while `generateTimeSlots` (used by
the per-date slot listing) produces 3 slots — the two computations do not
agree for all valid windows. -/
theorem totalSlots_grid_mismatch :
    wMismatch.totalSlots = 2 ∧
    wMismatch.generateTimeSlots.length = 3 ∧
    wMismatch.totalSlots ≠ (wMismatch.generateTimeSlots.length : Int) := by
  refine ⟨rfl, rfl, ?_⟩
  intro h
  simp only [show wMismatch.totalSlots = 2 from rfl,
    show wMismatch.generateTimeSlots.length = 3 from rfl] at h
  omega

lemma slotsMinutes_length (d e cur : Nat) (hd : 0 < d) :
    (slotsMinutes d e cur).length = (e - cur + d - 1) / d := by
  rw [slotsMinutes_eq_range d e cur hd]
  simp

lemma floor_eq_ceil_iff_dvd (m d : Nat) (hd : 0 < d) :
    (m / d = (m + d - 1) / d) ↔ d ∣ m := by
  have hmod := Nat.div_add_mod m d
  set q := m / d with hq
  set r := m % d with hr
  have hrlt : r < d := Nat.mod_lt m hd
  have hdvd : d ∣ m ↔ r = 0 := by
    rw [hr]
    exact Nat.dvd_iff_mod_eq_zero
  rcases Nat.eq_zero_or_pos r with h0 | hpos
  · have hm : m = d * q := by omega
    have hceil : (m + d - 1) / d = q := by
      have : m + d - 1 = d * q + (d - 1) := by omega
      rw [this, Nat.mul_add_div hd, Nat.div_eq_of_lt (by omega)]
      omega
    rw [hceil]
    simp [hdvd, h0]
  · have hceil : (m + d - 1) / d = q + 1 := by
      have h2 : m + d - 1 = d * q + (r + d - 1) := by omega
      have h3 : (r + d - 1) / d = 1 := Nat.div_eq_of_lt_le (by omega) (by omega)
      rw [h2, Nat.mul_add_div hd, h3]
    rw [hceil]
    constructor
    · intro h
      omega
    · intro h
      rw [hdvd] at h
      omega

/-- Amendment of C10: the grid length is the ceiling
`⌈(end − start) / duration⌉` while the `totalSlots` virtual is the floor;
the two agree exactly when the slot duration divides the window length, and
otherwise `totalSlots` undercounts the listed slots by one.  (At
09:00–10:15 / 30 the calendar reports 2 while the slot listing shows 3.) -/
theorem totalSlots_vs_grid (w : AvailWindow)
    (hlt : timeToMinutes w.startTime < timeToMinutes w.endTime)
    (h15 : 15 ≤ w.slotDuration) (h120 : w.slotDuration ≤ 120) :
    w.generateTimeSlots.length =
      (timeToMinutes w.endTime - timeToMinutes w.startTime + w.slotDuration - 1)
        / w.slotDuration ∧
    w.totalSlots =
      ((timeToMinutes w.endTime - timeToMinutes w.startTime) / w.slotDuration : Nat) ∧
    (w.totalSlots = (w.generateTimeSlots.length : Int) ↔
      w.slotDuration ∣ (timeToMinutes w.endTime - timeToMinutes w.startTime)) := by
  have hd : 0 < w.slotDuration := by omega
  set sm := timeToMinutes w.startTime with hsm
  set em := timeToMinutes w.endTime with hem
  have hlen : w.generateTimeSlots.length = (em - sm + w.slotDuration - 1) / w.slotDuration := by
    rw [AvailWindow.generateTimeSlots, generateTimeSlots, List.length_map, ← hsm, ← hem]
    exact slotsMinutes_length _ _ _ hd
  have hfd : ∀ m n : Nat, Int.fdiv (m : Int) (n : Int) = ((m / n : Nat) : Int) := by
    intro m n
    cases m with
    | zero => simp [Int.fdiv]
    | succ k => rfl
  have htot : w.totalSlots = ((em - sm) / w.slotDuration : Nat) := by
    rw [AvailWindow.totalSlots, ← hsm, ← hem]
    rw [← Int.ofNat_sub (le_of_lt hlt)]
    exact hfd (em - sm) w.slotDuration
  refine ⟨hlen, htot, ?_⟩
  rw [htot, hlen]
  rw [Int.ofNat_inj]
  exact floor_eq_ceil_iff_dvd (em - sm) w.slotDuration hd

/-- Witness for the C10 amendment at the 09:00–10:00 / 30 window, where the
duration divides the range and the two counts agree. -/
theorem totalSlots_vs_grid_witness :
    wEx.totalSlots = ((timeToMinutes wEx.endTime - timeToMinutes wEx.startTime)
      / wEx.slotDuration : Nat) :=
  (totalSlots_vs_grid wEx (by decide) (by decide) (by decide)).2.1

/-! ## Claim C6 -/

/-- Bulk request item for 2025-10-01, 09:00–17:00, 30-minute slots. -/
def spec1001 : DateSpec :=
  { date := "2025-10-01", startTime := "09:00", endTime := "17:00",
    slotDuration := some 30, notes := none }

/-- Bulk request item for 2025-10-02, same times. -/
def spec1002 : DateSpec :=
  { date := "2025-10-02", startTime := "09:00", endTime := "17:00",
    slotDuration := some 30, notes := none }

/-- Counterexample to C6: when a requested date already exists in the store,
`createBulkAvailableDates` rejects the entire batch up front (409, listing
the existing dates) — here the batch `["2025-10-02", "2025-10-01"]` against
a store already holding 2025-10-01 creates nothing, not even the free
2025-10-02 item, so the items are not attempted independently. -/
theorem bulkCreate_batch_abort :
    createBulkAvailableDates [mkWindow spec1001] [spec1002, spec1001] =
      .error ["2025-10-01"] := rfl

/-- Amendment of C6: the pre-check aborts the whole batch whenever any
requested date already exists; only when no requested date pre-exists does
the per-item loop run, attempting each item independently and aggregating
`created`/`errors` — in particular, for the duplicate-within-batch input
`["2025-10-01","2025-10-01"]` (neither pre-existing) the first item is
created and the second lands in `errors` with the duplicate-key reason, with
`created.length = 1`. -/
theorem bulkCreate_amended :
    (createBulkAvailableDates [] [spec1001, spec1001] =
      .ok { created := [mkWindow spec1001],
            errors := [("2025-10-01", .dupDate)],
            store := [mkWindow spec1001] }) ∧
    (∀ store specs, (∃ w ∈ store, ∃ sp ∈ specs, sp.date = w.date) →
      ∃ ds, createBulkAvailableDates store specs = .error ds) ∧
    (∀ store specs, (∀ w ∈ store, ∀ sp ∈ specs, sp.date ≠ w.date) →
      createBulkAvailableDates store specs = .ok (bulkLoop store specs)) := by
  refine ⟨rfl, ?_, ?_⟩
  · intro store specs ⟨w, hw, sp, hsp, hdate⟩
    simp only [createBulkAvailableDates]
    rw [if_pos]
    · exact ⟨_, rfl⟩
    · have hmem : w ∈ store.filter
          (fun v => specs.any (fun q => decide (q.date = v.date))) := by
        rw [List.mem_filter]
        refine ⟨hw, ?_⟩
        rw [List.any_eq_true]
        exact ⟨sp, hsp, by simp [hdate]⟩
      exact List.length_pos.mpr (List.ne_nil_of_mem hmem)
  · intro store specs h
    simp only [createBulkAvailableDates]
    rw [if_neg]
    intro hpos
    rw [List.length_pos] at hpos
    obtain ⟨w, hw⟩ := List.exists_mem_of_ne_nil _ hpos
    rw [List.mem_filter] at hw
    obtain ⟨hwst, hpred⟩ := hw
    rw [List.any_eq_true] at hpred
    obtain ⟨sp, hsp, hd⟩ := hpred
    exact h w hwst sp hsp (by simpa using hd)

/-- Witness for the C6 amendment: the batch-abort clause at the concrete
counterexample input. -/
theorem bulkCreate_amended_witness :
    ∃ ds, createBulkAvailableDates [mkWindow spec1001] [spec1002, spec1001] =
      .error ds :=
  bulkCreate_amended.2.1 [mkWindow spec1001] [spec1002, spec1001]
    ⟨mkWindow spec1001, List.mem_singleton_self _, spec1001,
      List.mem_cons_of_mem _ (List.mem_singleton_self _), rfl⟩

/-! ## Claim C3 -/

/-- Claim C3: after a successful create at `(date, timeSlot)`, a second
create for the identical pair fails with the 409 Conflict
`'This time slot is already booked'` (the `slotTaken` outcome); an error
return carries no new store, so the failed attempt leaves the store
unchanged. -/
theorem create_after_create_conflicts (env : Env) (s : BState)
    (date timeSlot : String) (cust : Customer) (s' : BState) (b : Booking)
    (cust2 : Customer)
    (h : createBooking env s date timeSlot cust = .ok (s', b)) :
    createBooking env s' date timeSlot cust2 = .error .slotTaken := by
  obtain ⟨hpd, hpts, hlim, ⟨w, hw, hv⟩, _, _, _, hrows, hbd, hbt, _, hbst⟩ :=
    createBooking_ok h
  have hlive : liveAt s' date timeSlot = true := by
    rw [liveAt, hrows, List.any_cons]
    simp [hbd, hbt, hbst]
  simp only [createBooking, hpd, hpts, hlim, hw, hv, hlive]
  simp

/-- Witness for C3: the concrete double-create on the 2025-10-01 09:00
slot. -/
theorem create_after_create_conflicts_witness :
    createBooking envEx { nextId := 1, rows := [bEx] } "2025-10-01" "09:00"
      custEx = .error .slotTaken :=
  create_after_create_conflicts envEx { nextId := 0, rows := [] }
    "2025-10-01" "09:00" custEx { nextId := 1, rows := [bEx] } bEx custEx rfl

/-! ## Claim C9 -/

/-- Environment whose current instant is 2025-09-30 10:00, with an active
window covering that very slot. -/
def envNow : Env :=
  { today := "2025-09-30", currentTime := "10:00", maxDate := "2026-09-30",
    nowMs := 0, toMs := fun _ _ => 0, refBase := "SM202509301000",
    avail := [{ date := "2025-09-30", startTime := "09:00",
                endTime := "17:00", slotDuration := 30, isActive := true,
                notes := "" }] }

/-- Counterexample to C9: booking today's slot equal to the current
time-of-day (10:00 at 10:00) is rejected as past — `isPastTimeSlot` uses
`timeSlot <= currentTime`, so a slot equal to the current minute does not
pass the check, contrary to the claim's parenthetical. -/
theorem create_at_current_minute_rejected :
    createBooking envNow { nextId := 0, rows := [] } "2025-09-30" "10:00"
      custEx = .error .pastTimeSlot := rfl

/-- Amendment of C9: create rejects (returning an error, hence inserting
nothing) every date strictly before the current date, every date beyond the
advance-booking horizon (assuming today does not exceed the horizon), and —
when the date is today — every time slot less than **or equal to** the
current time-of-day; only a slot strictly after the current time passes the
past-slot check. -/
theorem create_validation_rejections :
    (∀ env s d t c, strLt d env.today = true →
      createBooking env s d t c = .error .pastDate) ∧
    (∀ env s d t c, strLe env.today env.maxDate = true →
      strLt env.maxDate d = true →
      createBooking env s d t c = .error .beyondLimit) ∧
    (∀ env s t c, strLe t env.currentTime = true →
      createBooking env s env.today t c = .error .pastTimeSlot) ∧
    (∀ env d t, d = env.today → strLt env.currentTime t = true →
      isPastTimeSlot env d t = false) := by
  refine ⟨?_, ?_, ?_, ?_⟩
  · intro env s d t c h
    simp only [createBooking, isPastDate, h]
    simp
  · intro env s d t c hle hgt
    have hmt : strLt env.maxDate env.today = false := by
      rw [strLe, Bool.not_eq_true'] at hle
      exact hle
    have hpd : strLt d env.today = false := by
      cases hdt : strLt d env.today
      · rfl
      · have := strLt_trans hgt hdt
        rw [hmt] at this
        exact absurd this (by simp)
    have hne : d ≠ env.today := by
      intro hcon
      rw [hcon] at hgt
      simp [hgt] at hmt
    simp only [createBooking, isPastDate, isPastTimeSlot, isToday,
      isWithinBookingLimit, strLe, hpd, hgt, hne]
    simp
  · intro env s t c h
    simp only [createBooking, isPastDate, isPastTimeSlot, isToday,
      strLt_irrefl, h]
    simp
  · intro env d t hd h
    subst hd
    simp [isPastTimeSlot, isToday, strLe, h]

/-- Witness for the C9 amendment: yesterday's date rejected as past in the
concrete environment. -/
theorem create_validation_rejections_witness :
    createBooking envEx { nextId := 0, rows := [] } "2025-09-29" "09:00"
      custEx = .error .pastDate :=
  create_validation_rejections.1 envEx { nextId := 0, rows := [] }
    "2025-09-29" "09:00" custEx rfl

/-! ## Claim C2 -/

/-- Counterpart of the C2 scenario evaluated on the code: create booking A
at ("2025-10-01","09:00"), cancel it (the cancelled row is retained), then
attempt booking B at the same pair.  The application-level conflict check
passes (no live booking holds the slot), but the insertion hits the plain
compound unique index on `(date, timeSlot)` — which ignores status — and
fails with a duplicate-key error, so the claimed "cancellation frees the
slot" behaviour does not hold on this code. -/
theorem cancelled_slot_blocks_rebooking :
    createBooking envEx { nextId := 0, rows := [] } "2025-10-01" "09:00"
        custEx = .ok ({ nextId := 1, rows := [bEx] }, bEx) ∧
    cancelBooking envEx { nextId := 1, rows := [bEx] } "SM2025093008001"
        none = .ok { nextId := 1, rows := [bExCancelled] } ∧
    liveAt { nextId := 1, rows := [bExCancelled] } "2025-10-01" "09:00"
        = false ∧
    createBooking envEx { nextId := 1, rows := [bExCancelled] } "2025-10-01"
        "09:00" custEx = .error .dupDateTimeSlot :=
  ⟨rfl, rfl, rfl, rfl⟩

/-! ## Claim C4 -/

/-- The reference-search loop under full exhaustion: when every candidate
counter in `[counter, 999]` is taken, the do-while exits with last tried
reference `base ++ "999"` — it returns a value instead of failing. -/
lemma genRefLoop_exhausted (used : String → Bool) (base : String) :
    ∀ fuel counter, counter + fuel = 1000 → 1 ≤ counter → counter ≤ 999 →
      (∀ c, counter ≤ c → c ≤ 999 → used (base ++ toString c) = true) →
      genRefLoop used base fuel counter = base ++ "999" := by
  intro fuel
  induction fuel with
  | zero =>
    intro counter hsum _ h999 _
    omega
  | succ n ih =>
    intro counter hsum h1 h999 hused
    rw [genRefLoop]
    simp only [hused counter le_rfl h999, if_pos]
    by_cases hlt : counter + 1 ≤ 999
    · rw [if_pos hlt]
      exact ih (counter + 1) (by omega) (by omega) hlt
        (fun c hc1 hc2 => hused c (by omega) hc2)
    · rw [if_neg hlt]
      have h9 : counter = 999 := by omega
      rw [h9]
      rfl

/-- Claim C4 as a code fact: when all 999 suffixes of the current
minute stem are in use, `generateBookingReference` does not fail — it
returns the already-used reference `stem ++ "999"` (whose save would then
die on the unique `bookingReference` index), contradicting both the spec's
`ExhaustedSequence` outcome and the method's own "generate unique booking
reference" contract. -/
theorem generateBookingReference_exhaustion (env : Env) (s : BState)
    (h : ∀ c, 1 ≤ c → c ≤ 999 →
      refUsed s (env.refBase ++ toString c) = true) :
    generateBookingReference env s = env.refBase ++ "999" ∧
    refUsed s (generateBookingReference env s) = true := by
  have hloop : genRefLoop (refUsed s) env.refBase 999 1 = env.refBase ++ "999" :=
    genRefLoop_exhausted (refUsed s) env.refBase 999 1 (by omega) (by omega)
      (by omega) (fun c hc1 hc2 => h c hc1 hc2)
  refine ⟨hloop, ?_⟩
  rw [generateBookingReference, hloop]
  have := h 999 (by omega) (by omega)
  simpa using this

/-- A stored booking carrying a given reference (all other fields
irrelevant to reference generation). -/
def refRow (ref : String) : Booking :=
  { id := 0, date := "2025-10-01", timeSlot := "09:00", name := "Asha Rao",
    email := "asha@example.com", phone := "9198765432", notes := "",
    status := .confirmed, bookingReference := ref, source := "online",
    cancelledAt := none, cancellationReason := none }

/-- A store holding all 999 references of the `envEx` minute stem. -/
def sFull : BState :=
  { nextId := 999,
    rows := (List.range 999).map
      (fun i => refRow ("SM202509300800" ++ toString (i + 1))) }

/-- Witness for C4: the exhausted generator evaluated on the concrete
999-reference store. -/
theorem generateBookingReference_exhaustion_witness :
    generateBookingReference envEx sFull = envEx.refBase ++ "999" ∧
    refUsed sFull (generateBookingReference envEx sFull) = true := by
  refine generateBookingReference_exhaustion envEx sFull ?_
  intro c h1 h2
  have hbase : envEx.refBase = "SM202509300800" := rfl
  rw [hbase, refUsed, List.any_eq_true]
  refine ⟨refRow ("SM202509300800" ++ toString c), ?_, by simp [refRow]⟩
  show _ ∈ sFull.rows
  rw [sFull]
  simp only [List.mem_map, List.mem_range]
  refine ⟨c - 1, by omega, ?_⟩
  have : c - 1 + 1 = c := by omega
  rw [this]

/-! ## Claim C7 -/

/-- Claim C7: `cancelBooking` fails on an already-`cancelled` or `completed`
booking (the two InvalidState outcomes — an error return leaves the store,
hence the booking, unchanged); it is refused with the too-late outcome when
strictly fewer than 2 hours (and more than 0 ms) remain before the booking's
date-time; in every other case it marks the booking cancelled, stamps
`cancelledAt` with the current instant and stores the given reason. -/
theorem cancel_spec (env : Env) (s : BState) (ref : String)
    (reason : Option String) (b : Booking)
    (hfind : s.rows.find? (fun r => decide (r.bookingReference = ref)) = some b) :
    (b.status = .cancelled →
      cancelBooking env s ref reason = .error .alreadyCancelled) ∧
    (b.status = .completed →
      cancelBooking env s ref reason = .error .cancelCompleted) ∧
    (b.status ≠ .cancelled → b.status ≠ .completed →
      0 < env.toMs b.date b.timeSlot - env.nowMs →
      env.toMs b.date b.timeSlot - env.nowMs < 7200000 →
      cancelBooking env s ref reason = .error .tooLateToCancel) ∧
    (b.status ≠ .cancelled → b.status ≠ .completed →
      ¬(0 < env.toMs b.date b.timeSlot - env.nowMs ∧
        env.toMs b.date b.timeSlot - env.nowMs < 7200000) →
      cancelBooking env s ref reason =
        .ok { s with rows := replaceById b.id (cancelledDoc env b reason) s.rows }) := by
  refine ⟨?_, ?_, ?_, ?_⟩
  · intro hc
    simp only [cancelBooking, hfind]
    rw [if_pos hc]
  · intro hc
    have hnc : ¬b.status = BStatus.cancelled := by
      rw [hc]
      intro hcon
      cases hcon
    simp only [cancelBooking, hfind]
    rw [if_neg hnc, if_pos hc]
  · intro h1 h2 hpos hlt
    simp only [cancelBooking, hfind]
    rw [if_neg h1, if_neg h2, if_pos ⟨hlt, hpos⟩]
  · intro h1 h2 hno
    simp only [cancelBooking, hfind]
    rw [if_neg h1, if_neg h2, if_neg (fun hc => hno ⟨hc.2, hc.1⟩)]

/-- Witness for C7: cancelling an already-cancelled booking fails with the
InvalidState outcome. -/
theorem cancel_spec_witness :
    cancelBooking envEx { nextId := 1, rows := [bExCancelled] }
      "SM2025093008001" none = .error .alreadyCancelled :=
  (cancel_spec envEx { nextId := 1, rows := [bExCancelled] }
    "SM2025093008001" none bExCancelled rfl).1 rfl

/-! ## Claim C8 -/

/-- The document the no-op reschedule saves: same pair, possibly annotated
notes. -/
def noopDoc (b : Booking) (reason : Option String) : Booking :=
  { b with
    date := b.date, timeSlot := b.timeSlot,
    notes := rescheduleNotes b b.date b.timeSlot reason }

/-- Claim C8: rescheduling a non-cancelled, non-completed booking onto its
own `(date, timeSlot)` (with the slot still legal, not past, and no other
row occupying the pair, as the unique index guarantees) succeeds — the
conflict query excludes the booking's own `_id`, so the booking does not
conflict with itself — and the result keeps the same `bookingReference`,
`date` and `timeSlot`. -/
theorem reschedule_noop (env : Env) (s : BState) (ref : String)
    (reason : Option String) (b : Booking) (w : AvailWindow)
    (hfind : s.rows.find? (fun r => decide (r.bookingReference = ref)) = some b)
    (hnc : b.status ≠ .cancelled) (hncomp : b.status ≠ .completed)
    (hpd : isPastDate env b.date = false)
    (hpts : isPastTimeSlot env b.date b.timeSlot = false)
    (hw : findActiveWindow env b.date = some w)
    (hv : w.isValidTimeSlot b.timeSlot = true)
    (hother : ∀ r ∈ s.rows, r.id ≠ b.id →
      ¬(r.date = b.date ∧ r.timeSlot = b.timeSlot)) :
    ∃ s1 b1, rescheduleBooking env s ref b.date b.timeSlot reason = .ok (s1, b1) ∧
      b1.bookingReference = b.bookingReference ∧ b1.date = b.date ∧
      b1.timeSlot = b.timeSlot := by
  have hlex : liveAtExcept s b.date b.timeSlot b.id = false := by
    rw [liveAtExcept, List.any_eq_false]
    intro r hr
    by_cases hid : r.id = b.id
    · simp [hid]
    · by_cases h1 : r.date = b.date
      · by_cases h2 : r.timeSlot = b.timeSlot
        · exact absurd ⟨h1, h2⟩ (hother r hr hid)
        · simp [h2]
      · simp [h1]
  have hpex : pairAtExcept s b.date b.timeSlot b.id = false :=
    pairAtExcept_eq_false_iff.mpr hother
  refine ⟨{ s with rows := replaceById b.id (noopDoc b reason) s.rows },
    noopDoc b reason, ?_, rfl, rfl, rfl⟩
  simp only [rescheduleBooking, hfind]
  rw [if_neg hnc, if_neg hncomp]
  simp [hpd, hpts, hw, hv, hlex, saveExisting, hpex, noopDoc]

/-- Witness for C8: the no-op reschedule of the concrete confirmed booking
at ("2025-10-01","09:00"). -/
theorem reschedule_noop_witness :
    ∃ s1 b1, rescheduleBooking envEx { nextId := 1, rows := [bEx] }
        "SM2025093008001" "2025-10-01" "09:00" none = .ok (s1, b1) ∧
      b1.bookingReference = bEx.bookingReference ∧ b1.date = bEx.date ∧
      b1.timeSlot = bEx.timeSlot :=
  reschedule_noop envEx { nextId := 1, rows := [bEx] } "SM2025093008001"
    none bEx wEx rfl (by decide) (by decide) rfl rfl rfl rfl
    (by
      intro r hr hid
      rw [List.mem_singleton] at hr
      subst hr
      exact absurd rfl hid)

end SmartSlot
